import Mathlib

/-!
Verification of the log-parser utility (src/log-parser.py) against its
specification.  The Python source is shallowly embedded below: file contents
are lists of lines, the result of `open` is an explicit `OpenResult`, the
wall clock is a stream of readings (one per `datetime.now()` call), and
fallible parsing returns `Option`.  Strings are modelled over ASCII
characters; `str.split()` / `str.strip()` use the ASCII whitespace set.
-/

namespace LogParser

/-- A calendar date-time with second precision, the model of Python's
`datetime.datetime`.  Comparison is lexicographic on the six fields, as in
Python. -/
structure DateTime where
  year : Nat
  month : Nat
  day : Nat
  hour : Nat
  minute : Nat
  second : Nat
deriving DecidableEq, Repr

/-- Strict lexicographic order on lists of naturals (first position that
differs decides). -/
def natListLt : List Nat → List Nat → Bool
  | _, [] => false
  | [], _ :: _ => true
  | a :: as, b :: bs => a < b || (a == b && natListLt as bs)

/-- Non-strict lexicographic order on lists of naturals. -/
def natListLe : List Nat → List Nat → Bool
  | [], _ => true
  | _ :: _, [] => false
  | a :: as, b :: bs => a < b || (a == b && natListLe as bs)

/-- The six fields of a `DateTime`, most significant first. -/
def DateTime.key (d : DateTime) : List Nat :=
  [d.year, d.month, d.day, d.hour, d.minute, d.second]

/-- Strict comparison on date-times, the model of Python's `datetime`
comparison `a < b`. -/
def dtLt (a b : DateTime) : Bool := natListLt a.key b.key

/-- Non-strict comparison `a ≤ b` on date-times. -/
def dtLe (a b : DateTime) : Bool := natListLe a.key b.key

/-- Python's whitespace set for `str.split()` / `str.strip()` (ASCII part):
space, tab, newline, carriage return, vertical tab, form feed. -/
def isPySpace (c : Char) : Bool :=
  c == ' ' || c == '\t' || c == '\n' || c == '\r' || c == '\x0b' || c == '\x0c'

/-- Model of Python's `str.strip()`: drop leading and trailing whitespace. -/
def pyStrip (s : String) : String :=
  ⟨((s.data.dropWhile isPySpace).reverse.dropWhile isPySpace).reverse⟩

/-- Worker for `pySplit`: accumulate the current word (reversed) while
scanning the character list. -/
def splitAux : List Char → List Char → List (List Char)
  | [], acc => if acc.isEmpty then [] else [acc.reverse]
  | c :: cs, acc =>
    if isPySpace c then
      if acc.isEmpty then splitAux cs [] else acc.reverse :: splitAux cs []
    else splitAux cs (c :: acc)

/-- Model of Python's `str.split()` with no argument: split on runs of
whitespace, discarding empty tokens. -/
def pySplit (s : String) : List String :=
  (splitAux s.data []).map fun w => ⟨w⟩

/-- Model of Python's `" ".join(...)`: concatenate with a single space
between consecutive elements. -/
def joinWithSpace : List String → String
  | [] => ""
  | [x] => x
  | x :: y :: xs => x ++ " " ++ joinWithSpace (y :: xs)

/-- Model of Python's `needle in hay` substring test. -/
def hasSubstr (needle : List Char) : List Char → Bool
  | [] => needle.isEmpty
  | c :: t => needle.isPrefixOf (c :: t) || hasSubstr needle t

/-- `strContains hay needle` models Python's `needle in hay` on strings. -/
def strContains (hay needle : String) : Bool := hasSubstr needle.data hay.data

/-- Numeric value of a list of ASCII digit characters. -/
def digitsToNat (cs : List Char) : Nat :=
  cs.foldl (fun a c => a * 10 + (c.toNat - 48)) 0

/-- Parse a token as a 1- or 2-digit number, the way `strptime`'s numeric
field patterns match: the whole token must be one or two ASCII digits. -/
def parseNum2 (tok : String) : Option Nat :=
  let cs := tok.data
  if !cs.isEmpty && cs.length ≤ 2 && cs.all Char.isDigit then
    some (digitsToNat cs)
  else none

/-- Field `%d` of `strptime`: 1- or 2-digit day in 1..31 (`0` and `00` are
rejected by the `%d` pattern). -/
def parseDay (tok : String) : Option Nat :=
  match parseNum2 tok with
  | some n => if 1 ≤ n && n ≤ 31 then some n else none
  | none => none

/-- Field `%H` of `strptime`: 1- or 2-digit hour in 0..23. -/
def parseHour (tok : String) : Option Nat :=
  match parseNum2 tok with
  | some n => if n ≤ 23 then some n else none
  | none => none

/-- Fields `%M` and `%S` of `strptime`: 1- or 2-digit value in 0..59.  (`%S` also
matches 60 and 61, but the subsequent `datetime` construction raises
`ValueError` for those, which `extract_time` catches; the net result is the
same as rejecting them here.) -/
def parseMinSec (tok : String) : Option Nat :=
  match parseNum2 tok with
  | some n => if n ≤ 59 then some n else none
  | none => none

/-- ASCII lowercasing, as `strptime` applies to both the data string and
the month names before matching `%b`. -/
def strLower (s : String) : String := ⟨s.data.map Char.toLower⟩

/-- The C-locale month abbreviations matched by `%b`, lowercased, in
calendar order. -/
def monthAbbrevs : List String :=
  ["jan", "feb", "mar", "apr", "may", "jun",
   "jul", "aug", "sep", "oct", "nov", "dec"]

/-- Position (starting at `i`) of the first element equal to `t`. -/
def findMonth (t : String) : List String → Nat → Option Nat
  | [], _ => none
  | a :: rest, i => if a == t then some i else findMonth t rest (i + 1)

/-- Month number (1..12) for a token matching `%b`: the C-locale month
abbreviations, compared case-insensitively (as `strptime` lowercases both
sides). -/
def monthIndex (tok : String) : Option Nat :=
  findMonth (strLower tok) monthAbbrevs 1

/-- Gregorian leap-year rule, as used by `datetime`. -/
def isLeapYear (y : Nat) : Bool :=
  y % 4 == 0 && (y % 100 != 0 || y % 400 == 0)

/-- Number of days in month `m` of year `y`, as validated by the
`datetime` constructor. -/
def daysInMonth (y m : Nat) : Nat :=
  if m == 2 then (if isLeapYear y then 29 else 28)
  else if m == 4 || m == 6 || m == 9 || m == 11 then 30
  else 31

/-- Split a character list on `':'`, keeping empty segments, the model of
Python's `str.split(':')`. -/
def splitColonAux : List Char → List Char → List (List Char)
  | [], acc => [acc.reverse]
  | c :: cs, acc =>
    if c == ':' then acc.reverse :: splitColonAux cs []
    else splitColonAux cs (c :: acc)

/-- Colon-separated segments of a string. -/
def splitColon (s : String) : List String :=
  (splitColonAux s.data []).map fun w => ⟨w⟩

/-- Parse the third token as `%H:%M:%S`: exactly three colon-separated
numeric fields. -/
def parseHMS (tok : String) : Option (Nat × Nat × Nat) :=
  match splitColon tok with
  | [h, m, s] =>
    match parseHour h, parseMinSec m, parseMinSec s with
    | some hh, some mm, some ss => some (hh, mm, ss)
    | _, _, _ => none
  | _ => none

/-- The `strptime(f"{log_time} {current_year}", "%b %d %H:%M:%S %Y")` call
of line 40, acting on the three tokens: month abbreviation, day, and
time-of-day, combined with the current year.  A day out of range for the
month makes the `datetime` constructor raise `ValueError`, which the
caller catches, so it yields `none` here. -/
def parseTokens (year : Nat) (p1 p2 p3 : String) : Option DateTime :=
  match monthIndex p1, parseDay p2, parseHMS p3 with
  | some m, some d, some (h, mi, s) =>
    if d ≤ daysInMonth year m then
      some ⟨year, m, d, h, mi, s⟩
    else none
  | _, _, _ => none

/-- Embedding of `extract_time` (src/log-parser.py lines 29-42).  The call
`datetime.datetime.now().year` is the parameter `year`.  The line is split
on whitespace; with fewer than 3 tokens the result is `none`; otherwise the
first three tokens (whitespace-free, so joining them with single spaces and
re-splitting inside `strptime` recovers them) are parsed as
`%b %d %H:%M:%S` combined with `year`, and any parse failure yields
`none`. -/
def extract_time (year : Nat) (logLine : String) : Option DateTime :=
  match pySplit logLine with
  | p1 :: p2 :: p3 :: _ => parseTokens year p1 p2 p3
  | _ => none

/-- Truthiness of the `keyword` argument: Python's `if keyword` is false
for `None` and for the empty string. -/
def kwTruthy : Option String → Bool
  | none => false
  | some k => !(k == "")

/-- The keyword stage of the loop body (line 13): `keyword and keyword not
in line` — `true` means the line is discarded. -/
def keywordBlocks (keyword : Option String) (line : String) : Bool :=
  match keyword with
  | none => false
  | some k => !(k == "") && !(strContains line k)

/-- The time stage of the loop body (lines 15-21): `true` means the line is
discarded.  `extract_time` is only invoked when a bound is set, and a line
whose extraction fails is never discarded here. -/
def timeBlocks (year : Nat) (startTime endTime : Option DateTime)
    (line : String) : Bool :=
  if startTime.isSome || endTime.isSome then
    match extract_time year line with
    | some t =>
      (match startTime with
       | some s => dtLt t s
       | none => false) ||
      (match endTime with
       | some e => dtLt e t
       | none => false)
    | none => false
  else false

/-- A line survives the loop body iff neither stage discards it. -/
def linePasses (year : Nat) (keyword : Option String)
    (startTime endTime : Option DateTime) (line : String) : Bool :=
  !(keywordBlocks keyword line) && !(timeBlocks year startTime endTime line)

/-- The loop of `extract_log_entries` (lines 12-22): surviving lines are
stripped and appended in file order. -/
def filterLines (year : Nat) (keyword : Option String)
    (startTime endTime : Option DateTime) : List String → List String
  | [] => []
  | l :: rest =>
    if linePasses year keyword startTime endTime l then
      pyStrip l :: filterLines year keyword startTime endTime rest
    else filterLines year keyword startTime endTime rest

/-- Outcome of `open(log_file, 'r')`: the file's lines (each as yielded by
iteration, i.e. with its trailing newline when present), or the exception
raised. -/
inductive OpenResult where
  | ok (lines : List String)
  | notFound
  | permissionDenied
deriving DecidableEq

/-- Embedding of `extract_log_entries` (lines 5-27).  Returns the extracted
entries together with the console messages printed.  `FileNotFoundError`
and `PermissionError` are caught, reported, and the (still empty)
accumulator returned. -/
def extract_log_entries (year : Nat) (openRes : OpenResult)
    (logFile : String) (keyword : Option String)
    (startTime endTime : Option DateTime) : List String × List String :=
  match openRes with
  | .ok lines => (filterLines year keyword startTime endTime lines, [])
  | .notFound => ([], ["Log file " ++ logFile ++ " not found."])
  | .permissionDenied =>
    ([], ["Permission denied. Please check your permissions for "
          ++ logFile ++ "."])

/-- Embedding of `ensure_log_extension` (lines 44-48): Python's
`file_name.endswith(".log")` is the list-suffix test on the characters. -/
def ensure_log_extension (fileName : String) : String :=
  if ".log".data.isSuffixOf fileName.data then fileName
  else fileName ++ ".log"

/-- ASCII digit character for `n % 10`. -/
def digitChar (n : Nat) : Char := Char.ofNat (48 + n % 10)

/-- Decimal digits of `n` (most significant first), prepended to `acc`;
`fuel` bounds the recursion depth and is sufficient whenever
`n < 10 ^ fuel`. -/
def natDigitsAux : Nat → Nat → List Char → List Char
  | 0, _, acc => acc
  | fuel + 1, n, acc =>
    if n < 10 then digitChar n :: acc
    else natDigitsAux fuel (n / 10) (digitChar (n % 10) :: acc)

/-- Decimal digits of `n`, most significant first. -/
def natDigits (n : Nat) : List Char := natDigitsAux (n + 1) n []

/-- Decimal rendering of `n`, the model of Python's `str(n)`. -/
def natRepr (n : Nat) : String := ⟨natDigits n⟩

/-- Decimal rendering of `n`, zero-padded on the left to width `w`, the
model of `strftime`'s zero-padded numeric directives. -/
def padNat (w n : Nat) : String :=
  ⟨List.replicate (w - (natDigits n).length) '0' ++ natDigits n⟩

/-- Model of `datetime.strftime` with format `%Y-%m-%d %H:%M:%S`
(line 80). -/
def formatDateTime (d : DateTime) : String :=
  padNat 4 d.year ++ "-" ++ padNat 2 d.month ++ "-" ++ padNat 2 d.day
    ++ " " ++ padNat 2 d.hour ++ ":" ++ padNat 2 d.minute
    ++ ":" ++ padNat 2 d.second

/-- One CSV record as written by line 83: the f-string
`'"{ts}","{entry}"\n'` — both fields double-quoted, comma-separated,
newline-terminated, with no escaping applied to `entry`. -/
def csvRecord (ts entry : String) : String :=
  "\"" ++ ts ++ "\",\"" ++ entry ++ "\"\n"

/-- Embedding of `save_to_csv` (lines 76-83).  `clock i` is the reading
returned by the `i`-th call to `datetime.datetime.now()` inside this
invocation; the source makes exactly one such call, before the loop.
`existing` is the current content of the output file; opening in mode
`'a'` appends, so the result extends `existing`. -/
def save_to_csv (clock : Nat → DateTime) (entries : List String)
    (existing : String) : String :=
  let timestamp := formatDateTime (clock 0)
  existing ++ String.join (entries.map fun entry => csvRecord timestamp entry)

/-- The timestamp column of a CSV record: the characters after the opening
double quote, up to (excluding) the next double quote. -/
def tsField (r : String) : String :=
  ⟨(r.data.drop 1).takeWhile fun c => !(c == '"')⟩

/-- Embedding of the reporting tail of `main` (lines 104-112): given the
filter result, either append to the CSV file and print the count plus a
preview of the first 5 entries, or print the no-match message and leave the
CSV file untouched.  Returns the new CSV file content and the console
lines printed. -/
def mainReport (clock : Nat → DateTime) (logEntries : List String)
    (csvContent : String) : String × List String :=
  if !logEntries.isEmpty then
    (save_to_csv clock logEntries csvContent,
     ["Found " ++ natRepr logEntries.length
        ++ " entries matching your criteria.",
      "Entries successfully saved to parsed_log.csv.",
      "\nSummary of appended entries:"]
       ++ (logEntries.take 5).map (fun entry => " - " ++ entry))
  else
    (csvContent, ["No matching log entries found."])

/-! ## Helper lemmas -/

theorem natListLe_eq_not_natListLt : ∀ as bs : List Nat,
    natListLe as bs = !natListLt bs as
  | [], bs => by cases bs <;> simp [natListLe, natListLt]
  | _ :: _, [] => by simp [natListLe, natListLt]
  | a :: as, b :: bs => by
    simp only [natListLe, natListLt]
    rcases Nat.lt_trichotomy a b with h | h | h
    · simp [h, Nat.le_of_lt h, Nat.not_lt.mpr (Nat.le_of_lt h), Nat.ne_of_gt h]
    · subst h
      simp [natListLe_eq_not_natListLt as bs]
    · simp [h, Nat.not_lt.mpr (Nat.le_of_lt h), Nat.ne_of_gt h, Nat.ne_of_lt h]

theorem dtLe_eq_not_dtLt (a b : DateTime) : dtLe a b = !dtLt b a :=
  natListLe_eq_not_natListLt a.key b.key

theorem filterLines_eq_filter_map (year : Nat) (kw : Option String)
    (startT endT : Option DateTime) :
    ∀ lines : List String,
      filterLines year kw startT endT lines =
        (lines.filter (linePasses year kw startT endT)).map pyStrip
  | [] => rfl
  | l :: rest => by
    simp only [filterLines, List.filter]
    cases h : linePasses year kw startT endT l <;>
      simp [h, filterLines_eq_filter_map year kw startT endT rest]

/-! ## Claims -/

/-- C8: `ensure_log_extension` is idempotent — applying it twice yields the
same result as applying it once; `"auth"` normalizes to `"auth.log"` and
`"auth.log"` is returned unchanged. -/
theorem claim_ensure_log_extension_idempotent :
    (∀ s : String,
      ensure_log_extension (ensure_log_extension s) = ensure_log_extension s) ∧
    ensure_log_extension "auth" = "auth.log" ∧
    ensure_log_extension "auth.log" = "auth.log" := by
  refine ⟨fun s => ?_, by decide, by decide⟩
  by_cases h : (".log".data.isSuffixOf s.data) = true
  · simp [ensure_log_extension, h]
  · have hsfx : (".log".data.isSuffixOf ((s ++ ".log").data)) = true := by
      rw [String.data_append, List.isSuffixOf_iff_suffix]
      exact List.suffix_append _ _
    simp [ensure_log_extension, h, hsfx]

/-- C5: on a missing source file or a permission denial,
`extract_log_entries` prints the specific diagnostic and returns an empty
sequence; no entries are produced. -/
theorem claim_file_errors_recovered (year : Nat) (path : String)
    (kw : Option String) (startT endT : Option DateTime) :
    extract_log_entries year .notFound path kw startT endT =
      ([], ["Log file " ++ path ++ " not found."]) ∧
    extract_log_entries year .permissionDenied path kw startT endT =
      ([], ["Permission denied. Please check your permissions for "
            ++ path ++ "."]) :=
  ⟨rfl, rfl⟩

/-- C3: a line is retained only if the keyword is empty or occurs as a
case-sensitive literal substring of the line, and an empty keyword blocks
nothing. -/
theorem claim_keyword_filter (year : Nat) (kw : String)
    (startT endT : Option DateTime) (line : String) :
    (linePasses year (some kw) startT endT line = true →
      kw = "" ∨ strContains line kw = true) ∧
    keywordBlocks (some "") line = false ∧
    keywordBlocks none line = false := by
  refine ⟨fun h => ?_, by simp [keywordBlocks], rfl⟩
  by_cases hk : kw = ""
  · exact Or.inl hk
  · refine Or.inr ?_
    simp only [linePasses, Bool.and_eq_true, Bool.not_eq_true'] at h
    simp only [keywordBlocks, Bool.and_eq_false_iff, Bool.not_eq_false,
      Bool.not_eq_false'] at h
    rcases h.1 with h1 | h1
    · exact absurd (by simpa using h1) hk
    · exact h1

/-- C3 witness: with keyword `"Failed"` the retained scenario-A line does
contain the keyword. -/
theorem claim_keyword_filter_witness :
    "Failed" = "" ∨
      strContains "Nov 26 14:29:50 server sshd: Failed login\n" "Failed" = true :=
  (claim_keyword_filter 2026 "Failed" none none
    "Nov 26 14:29:50 server sshd: Failed login\n").1 (by decide)

/-- C2: a line on which timestamp extraction fails is never discarded on
time grounds, for every combination of bounds: the time stage blocks
nothing and the overall verdict reduces to the keyword stage. -/
theorem claim_no_timestamp_passes_time (year : Nat) (line : String)
    (h : extract_time year line = none) (kw : Option String)
    (startT endT : Option DateTime) :
    timeBlocks year startT endT line = false ∧
    linePasses year kw startT endT line = !(keywordBlocks kw line) := by
  have ht : timeBlocks year startT endT line = false := by
    unfold timeBlocks
    split
    · rw [h]
    · rfl
  exact ⟨ht, by simp [linePasses, ht]⟩

/-- C2 witness: the two-token scenario-C line has no extractable timestamp
and passes the time stage under concrete bounds. -/
theorem claim_no_timestamp_passes_time_witness :
    timeBlocks 2026 (some ⟨2026, 1, 1, 0, 0, 0⟩) (some ⟨2026, 1, 2, 0, 0, 0⟩)
        "garbage short\n" = false ∧
    linePasses 2026 (some "garbage") (some ⟨2026, 1, 1, 0, 0, 0⟩)
        (some ⟨2026, 1, 2, 0, 0, 0⟩) "garbage short\n" =
      !(keywordBlocks (some "garbage") "garbage short\n") :=
  claim_no_timestamp_passes_time 2026 "garbage short\n" (by decide)
    (some "garbage") (some ⟨2026, 1, 1, 0, 0, 0⟩) (some ⟨2026, 1, 2, 0, 0, 0⟩)

/-- C1: for a line with an extractable timestamp `t`, the time stage
retains the line iff the start bound is absent or `t` is at least the
start, and the end bound is absent or `t` is at most the end — bounds are
inclusive on both sides. -/
theorem claim_time_bounds_inclusive (year : Nat)
    (startT endT : Option DateTime) (line : String) (t : DateTime)
    (h : extract_time year line = some t) :
    timeBlocks year startT endT line = false ↔
      ((∀ s, startT = some s → dtLe s t = true) ∧
       (∀ e, endT = some e → dtLe t e = true)) := by
  cases startT <;> cases endT <;>
    simp [timeBlocks, h, dtLe_eq_not_dtLt, Bool.not_eq_true']

/-- C1 witness: the scenario-A line with both bounds set around its
timestamp is retained by the time stage. -/
theorem claim_time_bounds_inclusive_witness :
    timeBlocks 2026 (some ⟨2026, 11, 26, 0, 0, 0⟩)
        (some ⟨2026, 11, 26, 23, 59, 59⟩) "Nov 26 14:29:50 server sshd: Failed login\n"
        = false ↔
      ((∀ s, (some ⟨2026, 11, 26, 0, 0, 0⟩ : Option DateTime) = some s →
          dtLe s ⟨2026, 11, 26, 14, 29, 50⟩ = true) ∧
       (∀ e, (some ⟨2026, 11, 26, 23, 59, 59⟩ : Option DateTime) = some e →
          dtLe ⟨2026, 11, 26, 14, 29, 50⟩ e = true)) :=
  claim_time_bounds_inclusive 2026 (some ⟨2026, 11, 26, 0, 0, 0⟩)
    (some ⟨2026, 11, 26, 23, 59, 59⟩) "Nov 26 14:29:50 server sshd: Failed login\n"
    ⟨2026, 11, 26, 14, 29, 50⟩ (by decide)

/-- C9: the entries produced from a readable file are exactly the
surviving lines, each stripped of surrounding whitespace, in the file's
original order (the surviving lines form a sublist of the input). -/
theorem claim_entries_stripped_in_order (year : Nat) (kw : Option String)
    (startT endT : Option DateTime) (lines : List String) :
    ∃ kept : List String,
      kept.Sublist lines ∧
      (∀ l, l ∈ kept → linePasses year kw startT endT l = true) ∧
      (∀ l, l ∈ lines → linePasses year kw startT endT l = true → l ∈ kept) ∧
      filterLines year kw startT endT lines = kept.map pyStrip := by
  refine ⟨lines.filter (linePasses year kw startT endT),
    List.filter_sublist lines, ?_, ?_, filterLines_eq_filter_map _ _ _ _ _⟩
  · exact fun l hl => (List.mem_filter.mp hl).2
  · exact fun l hl hp => List.mem_filter.mpr ⟨hl, hp⟩

/-- C9 witness: on a concrete two-line file with keyword `"Failed"`, the
matching line survives, the other does not, and the output is the stripped
survivor. -/
theorem claim_entries_stripped_in_order_witness :
    ∃ kept : List String,
      kept.Sublist [" Nov 26 14:29:50 Failed login \n", "Nov 26 14:29:50 ok\n"] ∧
      (∀ l, l ∈ kept → linePasses 2026 (some "Failed") none none l = true) ∧
      (∀ l, l ∈ [" Nov 26 14:29:50 Failed login \n", "Nov 26 14:29:50 ok\n"] →
        linePasses 2026 (some "Failed") none none l = true → l ∈ kept) ∧
      filterLines 2026 (some "Failed") none none
          [" Nov 26 14:29:50 Failed login \n", "Nov 26 14:29:50 ok\n"] =
        kept.map pyStrip :=
  claim_entries_stripped_in_order 2026 (some "Failed") none none
    [" Nov 26 14:29:50 Failed login \n", "Nov 26 14:29:50 ok\n"]

/-- C7: `save_to_csv` appends to the existing content (never truncates) and
writes, for each entry, exactly one double-quoted, comma-separated,
newline-terminated record pairing the formatted write-time timestamp with
the original entry text verbatim — no escaping of embedded quotes. -/
theorem claim_save_to_csv_format (clock : Nat → DateTime)
    (entries : List String) (existing : String) :
    save_to_csv clock entries existing =
      existing ++ String.join (entries.map fun entry =>
        "\"" ++ formatDateTime (clock 0) ++ "\",\"" ++ entry ++ "\"\n") ∧
    existing.data <+: (save_to_csv clock entries existing).data := by
  refine ⟨rfl, ?_⟩
  rw [save_to_csv, String.data_append]
  exact List.prefix_append _ _

/-- C6: with an empty filter result `main` prints the no-match message and
leaves the CSV file untouched; with a non-empty result it appends the
entries via `save_to_csv` and prints the count followed by the first five
entries as a preview. -/
theorem claim_main_report (clock : Nat → DateTime) (entries : List String)
    (csv : String) :
    (entries = [] →
      mainReport clock entries csv =
        (csv, ["No matching log entries found."])) ∧
    (entries ≠ [] →
      mainReport clock entries csv =
        (save_to_csv clock entries csv,
         ["Found " ++ natRepr entries.length
            ++ " entries matching your criteria.",
          "Entries successfully saved to parsed_log.csv.",
          "\nSummary of appended entries:"]
           ++ (entries.take 5).map (fun entry => " - " ++ entry))) := by
  constructor
  · rintro rfl
    rfl
  · intro h
    rw [mainReport, if_pos]
    simpa using h

/-- C6 witness: the empty result skips the CSV step on a concrete state,
and a singleton result appends one record and prints the preview. -/
theorem claim_main_report_witness :
    (mainReport (fun _ => ⟨2026, 1, 2, 3, 4, 5⟩) [] "old" =
      ("old", ["No matching log entries found."])) ∧
    (mainReport (fun _ => ⟨2026, 1, 2, 3, 4, 5⟩) ["a"] "old" =
      (save_to_csv (fun _ => ⟨2026, 1, 2, 3, 4, 5⟩) ["a"] "old",
       ["Found " ++ natRepr 1 ++ " entries matching your criteria.",
        "Entries successfully saved to parsed_log.csv.",
        "\nSummary of appended entries:", " - a"])) :=
  ⟨(claim_main_report (fun _ => ⟨2026, 1, 2, 3, 4, 5⟩) [] "old").1 rfl,
   (claim_main_report (fun _ => ⟨2026, 1, 2, 3, 4, 5⟩) ["a"] "old").2
     (by decide)⟩

theorem digitChar_ne_quote (n : Nat) : digitChar n ≠ '"' := by
  unfold digitChar
  have h : n % 10 < 10 := Nat.mod_lt _ (by omega)
  interval_cases h10 : n % 10 <;> decide

theorem quote_not_mem_natDigitsAux :
    ∀ (fuel n : Nat) (acc : List Char), '"' ∉ acc →
      '"' ∉ natDigitsAux fuel n acc
  | 0, _, _, h => h
  | fuel + 1, n, acc, h => by
    rw [natDigitsAux]
    split
    · intro hmem
      rcases List.mem_cons.mp hmem with he | hm
      · exact digitChar_ne_quote n he.symm
      · exact h hm
    · refine quote_not_mem_natDigitsAux fuel (n / 10) _ ?_
      intro hmem
      rcases List.mem_cons.mp hmem with he | hm
      · exact digitChar_ne_quote (n % 10) he.symm
      · exact h hm

theorem quote_not_mem_padNat (w n : Nat) : '"' ∉ (padNat w n).data := by
  intro hmem
  rcases List.mem_append.mp hmem with hr | hd
  · exact absurd (List.eq_of_mem_replicate hr) (by decide)
  · exact quote_not_mem_natDigitsAux (n + 1) n [] (by simp) hd

theorem quote_not_mem_formatDateTime (d : DateTime) :
    '"' ∉ (formatDateTime d).data := by
  rw [formatDateTime]
  simp only [String.data_append, List.mem_append]
  intro hmem
  rcases hmem with ((((((((((h | h) | h) | h) | h) | h) | h) | h) | h) | h) | h) <;>
    first
      | exact quote_not_mem_padNat _ _ h
      | exact absurd h (by decide)

theorem takeWhile_all_append_stop {p : Char → Bool} :
    ∀ (l : List Char), (∀ c ∈ l, p c = true) →
      ∀ (c : Char) (rest : List Char), p c = false →
        ((l ++ c :: rest).takeWhile p) = l
  | [], _, c, rest, hc => by simp [List.takeWhile_cons, hc]
  | a :: l, hl, c, rest, hc => by
    have ha : p a = true := hl a (List.mem_cons_self a l)
    simp only [List.cons_append, List.takeWhile_cons, ha, if_true]
    rw [takeWhile_all_append_stop l (fun x hx => hl x (List.mem_cons_of_mem a hx))
      c rest hc]

theorem tsField_csvRecord (ts entry : String) (h : '"' ∉ ts.data) :
    tsField (csvRecord ts entry) = ts := by
  have hdata : (csvRecord ts entry).data =
      '"' :: (ts.data ++ '"' :: (',' :: '"' :: entry.data ++ ['"', '\n'])) := by
    simp [csvRecord, String.data_append]
  rw [tsField, hdata]
  simp only [List.drop_succ_cons, List.drop_zero]
  rw [takeWhile_all_append_stop ts.data
    (fun c hc => by
      simp only [Bool.not_eq_true', beq_eq_false_iff_ne, ne_eq]
      exact fun he => h (he ▸ hc))
    '"' _ (by decide)]

/-- C10: within one `save_to_csv` invocation the timestamp string is
computed from the single clock reading taken before the write loop, so the
output depends only on that reading and every appended record carries the
identical timestamp column. -/
theorem claim_csv_timestamp_once (clock : Nat → DateTime)
    (entries : List String) (existing : String) :
    save_to_csv clock entries existing =
      existing ++
        String.join (entries.map (csvRecord (formatDateTime (clock 0)))) ∧
    (∀ r, r ∈ entries.map (csvRecord (formatDateTime (clock 0))) →
      tsField r = formatDateTime (clock 0)) ∧
    (∀ clock2 : Nat → DateTime, clock2 0 = clock 0 →
      save_to_csv clock2 entries existing =
        save_to_csv clock entries existing) := by
  refine ⟨rfl, ?_, ?_⟩
  · intro r hr
    rcases List.mem_map.mp hr with ⟨entry, _, rfl⟩
    exact tsField_csvRecord _ entry (quote_not_mem_formatDateTime _)
  · intro clock2 h2
    rw [save_to_csv, save_to_csv, h2]

/-- C10 witness: both concrete records of a two-entry call carry the same
timestamp column. -/
theorem claim_csv_timestamp_once_witness :
    tsField (csvRecord (formatDateTime ⟨2026, 1, 2, 3, 4, 5⟩) "entry two") =
      formatDateTime ((fun _ => (⟨2026, 1, 2, 3, 4, 5⟩ : DateTime)) 0) :=
  (claim_csv_timestamp_once (fun _ => ⟨2026, 1, 2, 3, 4, 5⟩)
      ["entry one", "entry two"] "old").2.1
    (csvRecord (formatDateTime ⟨2026, 1, 2, 3, 4, 5⟩) "entry two")
    (by simp)

theorem splitAux_tokens : ∀ (cs acc : List Char),
    (∀ c ∈ acc, isPySpace c = false) →
    ∀ w ∈ splitAux cs acc, w ≠ [] ∧ ∀ c ∈ w, isPySpace c = false
  | [], acc, hacc => by
    rw [splitAux]
    split
    · intro w hw
      simp at hw
    · rename_i hne
      intro w hw
      simp only [List.mem_singleton] at hw
      subst hw
      refine ⟨?_, fun c hc => hacc c (List.mem_reverse.mp hc)⟩
      simp only [ne_eq, List.reverse_eq_nil_iff]
      intro hq
      subst hq
      exact hne rfl
  | c :: cs, acc, hacc => by
    rw [splitAux]
    split
    · split
      · exact splitAux_tokens cs [] (by simp)
      · rename_i hne
        intro w hw
        rcases List.mem_cons.mp hw with rfl | hmem
        · refine ⟨?_, fun ch hc => hacc ch (List.mem_reverse.mp hc)⟩
          simp only [ne_eq, List.reverse_eq_nil_iff]
          intro hq
          subst hq
          exact hne rfl
        · exact splitAux_tokens cs [] (by simp) w hmem
    · rename_i hnsp
      refine splitAux_tokens cs (c :: acc) ?_
      intro ch hch
      rcases List.mem_cons.mp hch with rfl | hm
      · exact Bool.eq_false_iff.mpr hnsp
      · exact hacc ch hm

theorem splitAux_word_append :
    ∀ (w : List Char), (∀ c ∈ w, isPySpace c = false) →
      ∀ (cs acc : List Char),
        splitAux (w ++ cs) acc = splitAux cs (w.reverse ++ acc)
  | [], _, cs, acc => by simp
  | c :: w, hw, cs, acc => by
    have hc : isPySpace c = false := hw c (List.mem_cons_self c w)
    rw [List.cons_append, splitAux, if_neg (by simp [hc])]
    rw [splitAux_word_append w (fun x hx => hw x (List.mem_cons_of_mem c hx))
      cs (c :: acc)]
    simp

theorem splitAux_space_cons (cs acc : List Char) (h : acc ≠ []) :
    splitAux (' ' :: cs) acc = acc.reverse :: splitAux cs [] := by
  rw [splitAux, if_pos (by decide)]
  rw [if_neg]
  simpa using h

theorem splitAux_join : ∀ (toks : List String),
    (∀ w ∈ toks, w.data ≠ [] ∧ ∀ c ∈ w.data, isPySpace c = false) →
    splitAux (joinWithSpace toks).data [] = toks.map String.data
  | [], _ => rfl
  | [x], hx => by
    have h := hx x (List.mem_singleton.mpr rfl)
    rw [joinWithSpace]
    rw [show x.data = x.data ++ ([] : List Char) from (List.append_nil _).symm,
      splitAux_word_append x.data h.2 [] []]
    rw [splitAux, if_neg (by simpa using h.1)]
    simp
  | x :: y :: toks, h => by
    have hx := h x (List.mem_cons_self _ _)
    have hrest := fun w hw => h w (List.mem_cons_of_mem x hw)
    rw [joinWithSpace]
    have hdata : (x ++ " " ++ joinWithSpace (y :: toks)).data =
        x.data ++ (' ' :: (joinWithSpace (y :: toks)).data) := by
      simp [String.data_append]
    rw [hdata, splitAux_word_append x.data hx.2 _ [], List.append_nil,
      splitAux_space_cons _ _ (by simpa using hx.1), List.reverse_reverse,
      splitAux_join (y :: toks) hrest]
    rfl

theorem pySplit_joinWithSpace (toks : List String)
    (h : ∀ w ∈ toks, w.data ≠ [] ∧ ∀ c ∈ w.data, isPySpace c = false) :
    pySplit (joinWithSpace toks) = toks := by
  rw [pySplit, splitAux_join toks h, List.map_map]
  have hf : ((fun w => (⟨w⟩ : String)) ∘ String.data) = id := funext fun w => rfl
  rw [hf, List.map_id]

theorem pySplit_tokens (line : String) :
    ∀ w ∈ pySplit line, w.data ≠ [] ∧ ∀ c ∈ w.data, isPySpace c = false := by
  intro w hw
  rw [pySplit] at hw
  rcases List.mem_map.mp hw with ⟨wl, hwl, rfl⟩
  exact splitAux_tokens line.data [] (by simp) wl hwl

theorem findMonth_bounds {t : String} : ∀ (l : List String) (i m : Nat),
    findMonth t l i = some m → i ≤ m ∧ m < i + l.length
  | [], i, m, h => absurd h (by simp [findMonth])
  | a :: rest, i, m, h => by
    rw [findMonth] at h
    by_cases hc : (a == t) = true
    · rw [if_pos hc] at h
      injection h with h'
      subst h'
      simp only [List.length_cons]
      omega
    · rw [if_neg hc] at h
      have hrec := findMonth_bounds rest (i + 1) m h
      simp only [List.length_cons]
      omega

theorem monthIndex_bounds {tok : String} {m : Nat}
    (h : monthIndex tok = some m) : 1 ≤ m ∧ m ≤ 12 := by
  have hb := findMonth_bounds monthAbbrevs 1 m h
  simp only [monthAbbrevs, List.length_cons, List.length_nil] at hb
  omega

theorem parseDay_bounds {tok : String} {d : Nat}
    (h : parseDay tok = some d) : 1 ≤ d ∧ d ≤ 31 := by
  unfold parseDay at h
  split at h
  · split at h
    · rename_i hcond
      injection h with h'
      subst h'
      simpa using hcond
    · exact absurd h (by simp)
  · exact absurd h (by simp)

theorem parseHour_le {tok : String} {n : Nat}
    (h : parseHour tok = some n) : n ≤ 23 := by
  unfold parseHour at h
  split at h
  · split at h
    · rename_i hcond
      injection h with h'
      subst h'
      simpa using hcond
    · exact absurd h (by simp)
  · exact absurd h (by simp)

theorem parseMinSec_le {tok : String} {n : Nat}
    (h : parseMinSec tok = some n) : n ≤ 59 := by
  unfold parseMinSec at h
  split at h
  · split at h
    · rename_i hcond
      injection h with h'
      subst h'
      simpa using hcond
    · exact absurd h (by simp)
  · exact absurd h (by simp)

theorem parseHMS_bounds {tok : String} {hr mi se : Nat}
    (h : parseHMS tok = some (hr, mi, se)) :
    hr ≤ 23 ∧ mi ≤ 59 ∧ se ≤ 59 := by
  unfold parseHMS at h
  rcases hsc : splitColon tok with _ | ⟨a, _ | ⟨b, _ | ⟨c, _ | ⟨d, rest⟩⟩⟩⟩ <;>
    rw [hsc] at h
  · exact absurd h (by simp)
  · exact absurd h (by simp)
  · exact absurd h (by simp)
  · have h1 : (match parseHour a, parseMinSec b, parseMinSec c with
        | some hh, some mm, some ss => some (hh, mm, ss)
        | _, _, _ => none) = some (hr, mi, se) := h
    rcases hha : parseHour a with _ | hh <;> rw [hha] at h1
    · exact absurd h1 (by simp)
    · rcases hmb : parseMinSec b with _ | mm <;> rw [hmb] at h1
      · exact absurd h1 (by simp)
      · rcases hse : parseMinSec c with _ | ss <;> rw [hse] at h1
        · exact absurd h1 (by simp)
        · simp only [Option.some.injEq, Prod.mk.injEq] at h1
          obtain ⟨rfl, rfl, rfl⟩ := h1
          exact ⟨parseHour_le hha, parseMinSec_le hmb, parseMinSec_le hse⟩
  · exact absurd h (by simp)

theorem parseTokens_fields {year : Nat} {p1 p2 p3 : String} {t : DateTime}
    (h : parseTokens year p1 p2 p3 = some t) :
    t.year = year ∧ 1 ≤ t.month ∧ t.month ≤ 12 ∧ 1 ≤ t.day ∧
    t.day ≤ daysInMonth year t.month ∧
    t.hour ≤ 23 ∧ t.minute ≤ 59 ∧ t.second ≤ 59 := by
  unfold parseTokens at h
  rcases hm : monthIndex p1 with _ | m <;> rw [hm] at h
  · exact absurd h (by simp)
  rcases hd : parseDay p2 with _ | d <;> rw [hd] at h
  · exact absurd h (by simp)
  rcases hhms : parseHMS p3 with _ | ⟨hh, mi, ss⟩ <;> rw [hhms] at h
  · exact absurd h (by simp)
  have h2 : (if d ≤ daysInMonth year m then
      some (⟨year, m, d, hh, mi, ss⟩ : DateTime) else none) = some t := h
  split at h2
  · rename_i hday
    injection h2 with h'
    subst h'
    obtain ⟨hm1, hm2⟩ := monthIndex_bounds hm
    obtain ⟨hd1, _⟩ := parseDay_bounds hd
    obtain ⟨hh1, hmi1, hss1⟩ := parseHMS_bounds hhms
    exact ⟨rfl, hm1, hm2, hd1, hday, hh1, hmi1, hss1⟩
  · exact absurd h2 (by simp)

theorem extract_time_short (year : Nat) (line : String)
    (h : (pySplit line).length < 3) : extract_time year line = none := by
  unfold extract_time
  rcases hps : pySplit line with _ | ⟨p1, _ | ⟨p2, _ | ⟨p3, rest⟩⟩⟩
  · rfl
  · rfl
  · rfl
  · rw [hps] at h
    simp only [List.length_cons] at h
    omega

/-- C4: `extract_time` is total — its result is an `Option`, never an
error.  A line with fewer than 3 whitespace-delimited tokens yields no
timestamp; a returned timestamp always carries the supplied current year
and calendar-valid month, day and time-of-day fields; and the result
depends only on the first 3 tokens rejoined with single spaces, exactly as
the source joins and parses them. -/
theorem claim_extract_time_total :
    (∀ year line, (pySplit line).length < 3 → extract_time year line = none) ∧
    (∀ year line t, extract_time year line = some t →
      t.year = year ∧ 1 ≤ t.month ∧ t.month ≤ 12 ∧ 1 ≤ t.day ∧
      t.day ≤ daysInMonth year t.month ∧
      t.hour ≤ 23 ∧ t.minute ≤ 59 ∧ t.second ≤ 59) ∧
    (∀ year line,
      extract_time year line =
        extract_time year (joinWithSpace ((pySplit line).take 3))) := by
  refine ⟨fun year line h => extract_time_short year line h, ?_, ?_⟩
  · intro year line t h
    unfold extract_time at h
    rcases hps : pySplit line with _ | ⟨p1, _ | ⟨p2, _ | ⟨p3, rest⟩⟩⟩ <;>
      rw [hps] at h
    · exact absurd h (by simp)
    · exact absurd h (by simp)
    · exact absurd h (by simp)
    · exact parseTokens_fields h
  · intro year line
    have hwf := pySplit_tokens line
    rcases hps : pySplit line with _ | ⟨p1, _ | ⟨p2, _ | ⟨p3, rest⟩⟩⟩
    · rw [extract_time_short year line (by rw [hps]; simp)]
      exact (extract_time_short year _ (by decide)).symm
    · have hjs := pySplit_joinWithSpace [p1]
        (fun w hw => hwf w (by rw [hps]; simpa using hw))
      rw [extract_time_short year line (by rw [hps]; simp)]
      refine (extract_time_short year _ ?_).symm
      rw [show List.take 3 [p1] = [p1] from rfl, hjs]
      simp
    · have hjs := pySplit_joinWithSpace [p1, p2]
        (fun w hw => hwf w (by rw [hps]; simpa using hw))
      rw [extract_time_short year line (by rw [hps]; simp)]
      refine (extract_time_short year _ ?_).symm
      rw [show List.take 3 [p1, p2] = [p1, p2] from rfl, hjs]
      simp
    · have hjs := pySplit_joinWithSpace [p1, p2, p3]
        (fun w hw => hwf w (by
          rw [hps]
          simp only [List.mem_cons, List.not_mem_nil, or_false] at hw
          rcases hw with rfl | rfl | rfl <;> simp))
      rw [show List.take 3 (p1 :: p2 :: p3 :: rest) = [p1, p2, p3] from rfl]
      unfold extract_time
      rw [hps, hjs]

/-- C4 witness: the two-token scenario-C line yields no timestamp, and the
scenario-A line yields a timestamp with the supplied year and in-range
fields. -/
theorem claim_extract_time_total_witness :
    extract_time 2026 "garbage short" = none ∧
    ((⟨2026, 11, 26, 14, 29, 50⟩ : DateTime).year = 2026 ∧
      1 ≤ (⟨2026, 11, 26, 14, 29, 50⟩ : DateTime).month ∧
      (⟨2026, 11, 26, 14, 29, 50⟩ : DateTime).month ≤ 12 ∧
      1 ≤ (⟨2026, 11, 26, 14, 29, 50⟩ : DateTime).day ∧
      (⟨2026, 11, 26, 14, 29, 50⟩ : DateTime).day ≤
        daysInMonth 2026 (⟨2026, 11, 26, 14, 29, 50⟩ : DateTime).month ∧
      (⟨2026, 11, 26, 14, 29, 50⟩ : DateTime).hour ≤ 23 ∧
      (⟨2026, 11, 26, 14, 29, 50⟩ : DateTime).minute ≤ 59 ∧
      (⟨2026, 11, 26, 14, 29, 50⟩ : DateTime).second ≤ 59) :=
  ⟨claim_extract_time_total.1 2026 "garbage short" (by decide),
   claim_extract_time_total.2.1 2026 "Nov 26 14:29:50 server sshd: Failed login"
     ⟨2026, 11, 26, 14, 29, 50⟩ (by decide)⟩

end LogParser
